import Mathlib

/-!
Verification development for the crater-detection geometry engine
(`craterdetection/matching/utils.py`, `craterdetection/matching/projective_invariants.py`,
`craterdetection/common/camera.py`).

Modelling conventions:
* numpy `float64` arrays are embedded as exact field values: generic
  `Field K` (instantiated at `ℚ` for executable witnesses) for the purely
  rational computations, and `ℝ` where the source uses `sqrt`/`tan`/`sin`/`cos`.
* a 3x3 array is a `Mat3 K`, a 3-vector a `Vec3 K`, a 3x4 array a `Mat34 K`
  (left 3x3 block plus last column).
* `numpy.linalg.inv A` (defined exactly on nonsingular input) is embedded as
  `Mat3.inv A = (1 / det A) • adjugate A`, which agrees with the true inverse
  whenever `det A ≠ 0`; theorems that depend on inversion carry explicit
  nonsingularity hypotheses.
* `numpy.isfinite (numpy.linalg.cond M)` holds exactly when `M` is
  nonsingular, i.e. `det M ≠ 0` in exact arithmetic.
* batched (`Nx3x3`) operations are embedded as `List`-valued operations,
  one entry per batch element, in batch order.
-/

/-- A 3x3 matrix with entries `m<row><col>`, the shallow embedding of a
numpy `(3, 3)` array. -/
@[ext] structure Mat3 (K : Type) where
  m00 : K
  m01 : K
  m02 : K
  m10 : K
  m11 : K
  m12 : K
  m20 : K
  m21 : K
  m22 : K
deriving DecidableEq

/-- A 3-vector, the shallow embedding of a numpy `(3,)` or `(3, 1)` array. -/
@[ext] structure Vec3 (K : Type) where
  x : K
  y : K
  z : K
deriving DecidableEq

/-- A 3x4 matrix, stored as its left `3x3` block `M` and its last column `c`. -/
@[ext] structure Mat34 (K : Type) where
  M : Mat3 K
  c : Vec3 K

variable {K : Type} [Field K]

/-- Entrywise sum (numpy `A + B`). -/
def Mat3.add (A B : Mat3 K) : Mat3 K :=
  ⟨A.m00 + B.m00, A.m01 + B.m01, A.m02 + B.m02,
   A.m10 + B.m10, A.m11 + B.m11, A.m12 + B.m12,
   A.m20 + B.m20, A.m21 + B.m21, A.m22 + B.m22⟩

/-- Entrywise difference (numpy `A - B`). -/
def Mat3.sub (A B : Mat3 K) : Mat3 K :=
  ⟨A.m00 - B.m00, A.m01 - B.m01, A.m02 - B.m02,
   A.m10 - B.m10, A.m11 - B.m11, A.m12 - B.m12,
   A.m20 - B.m20, A.m21 - B.m21, A.m22 - B.m22⟩

/-- Matrix product (numpy `A @ B`). -/
def Mat3.mul (A B : Mat3 K) : Mat3 K :=
  ⟨A.m00 * B.m00 + A.m01 * B.m10 + A.m02 * B.m20,
   A.m00 * B.m01 + A.m01 * B.m11 + A.m02 * B.m21,
   A.m00 * B.m02 + A.m01 * B.m12 + A.m02 * B.m22,
   A.m10 * B.m00 + A.m11 * B.m10 + A.m12 * B.m20,
   A.m10 * B.m01 + A.m11 * B.m11 + A.m12 * B.m21,
   A.m10 * B.m02 + A.m11 * B.m12 + A.m12 * B.m22,
   A.m20 * B.m00 + A.m21 * B.m10 + A.m22 * B.m20,
   A.m20 * B.m01 + A.m21 * B.m11 + A.m22 * B.m21,
   A.m20 * B.m02 + A.m21 * B.m12 + A.m22 * B.m22⟩

/-- Scalar multiple of a matrix. -/
def Mat3.smul (s : K) (A : Mat3 K) : Mat3 K :=
  ⟨s * A.m00, s * A.m01, s * A.m02,
   s * A.m10, s * A.m11, s * A.m12,
   s * A.m20, s * A.m21, s * A.m22⟩

/-- Matrix transpose (numpy `A.T`). -/
def Mat3.transpose (A : Mat3 K) : Mat3 K :=
  ⟨A.m00, A.m10, A.m20,
   A.m01, A.m11, A.m21,
   A.m02, A.m12, A.m22⟩

/-- Trace of a matrix (numpy `trace`). -/
def Mat3.trace (A : Mat3 K) : K := A.m00 + A.m11 + A.m22

/-- Determinant of a 3x3 matrix (numpy `det`, Laplace expansion along the
first row). -/
def Mat3.det (A : Mat3 K) : K :=
  A.m00 * (A.m11 * A.m22 - A.m12 * A.m21)
    - A.m01 * (A.m10 * A.m22 - A.m12 * A.m20)
    + A.m02 * (A.m10 * A.m21 - A.m11 * A.m20)

/-- Classical adjugate (`matrix_adjugate` of `craterdetection/common/conics.py`,
whose stated contract is the transpose of the cofactor matrix, satisfying
`A * adjugate A = det A * I`). -/
def Mat3.adjugate (A : Mat3 K) : Mat3 K :=
  ⟨A.m11 * A.m22 - A.m12 * A.m21,
   A.m02 * A.m21 - A.m01 * A.m22,
   A.m01 * A.m12 - A.m02 * A.m11,
   A.m12 * A.m20 - A.m10 * A.m22,
   A.m00 * A.m22 - A.m02 * A.m20,
   A.m02 * A.m10 - A.m00 * A.m12,
   A.m10 * A.m21 - A.m11 * A.m20,
   A.m01 * A.m20 - A.m00 * A.m21,
   A.m00 * A.m11 - A.m01 * A.m10⟩

/-- The identity matrix. -/
def Mat3.one : Mat3 K := ⟨1, 0, 0, 0, 1, 0, 0, 0, 1⟩

/-- Embedding of `numpy.linalg.inv`: on nonsingular input this is the matrix
inverse (`Mat3.mul_inv_cancel` / `Mat3.inv_mul_cancel` below); `LA.inv`
raises on singular input, so every use carries a `det ≠ 0` hypothesis. -/
def Mat3.inv (A : Mat3 K) : Mat3 K := Mat3.smul (1 / A.det) A.adjugate

/-- Matrix-vector product (numpy `A @ v` for a `(3, 1)` vector). -/
def Mat3.mulVec (A : Mat3 K) (v : Vec3 K) : Vec3 K :=
  ⟨A.m00 * v.x + A.m01 * v.y + A.m02 * v.z,
   A.m10 * v.x + A.m11 * v.y + A.m12 * v.z,
   A.m20 * v.x + A.m21 * v.y + A.m22 * v.z⟩

/-- Matrix with the given columns (numpy `concatenate((u, v, w), axis=-1)`
for three column vectors). -/
def Mat3.ofCols (u v w : Vec3 K) : Mat3 K :=
  ⟨u.x, v.x, w.x,
   u.y, v.y, w.y,
   u.z, v.z, w.z⟩

/-- Add a vector to the third column of a matrix; this is the product
`[M | c] @ [[N], [k^T]]` minus `M @ N`, with `k = (0, 0, 1)`. -/
def Mat3.addCol3 (A : Mat3 K) (v : Vec3 K) : Mat3 K :=
  ⟨A.m00, A.m01, A.m02 + v.x,
   A.m10, A.m11, A.m12 + v.y,
   A.m20, A.m21, A.m22 + v.z⟩

/-- Vector negation. -/
def Vec3.neg (v : Vec3 K) : Vec3 K := ⟨-v.x, -v.y, -v.z⟩

/-- Cross product of 3-vectors (numpy `cross`). -/
def Vec3.cross (u v : Vec3 K) : Vec3 K :=
  ⟨u.y * v.z - u.z * v.y, u.z * v.x - u.x * v.z, u.x * v.y - u.y * v.x⟩

/-- Divide a vector componentwise by a scalar (numpy `v / s`). -/
def Vec3.sdiv (v : Vec3 K) (s : K) : Vec3 K := ⟨v.x / s, v.y / s, v.z / s⟩

/-- Euclidean norm of a 3-vector (`numpy.linalg.norm`, `ord=2`). -/
noncomputable def Vec3.norm (v : Vec3 ℝ) : ℝ := Real.sqrt (v.x ^ 2 + v.y ^ 2 + v.z ^ 2)

/-!
Embedding of `craterdetection/matching/utils.py`.
-/

/-- Embedding of `enhanced_pattern_shifting(n)` (`utils.py`, lines 95-117).
The Python generator

  for dj in range(1, n-2):
    for dk in range(1, n-dj-1):
      for ii in range(0, 3):
        for i in range(ii, n-dj-dk, 3):
          yield i, i+dj, i+dj+dk

is embedded as the list of yielded triples in yield order. `range(1, m)`
has `m - 1` elements (truncated at zero) and `range(ii, m, 3)` has
`(m - ii + 2) / 3` elements (truncated), which the `List.range'` /
`List.range` translations reproduce, including for `n < 3` where every
loop is empty. -/
def enhanced_pattern_shifting (n : Nat) : List (Nat × Nat × Nat) :=
  (List.range' 1 (n - 3)).flatMap (fun dj =>
    (List.range' 1 (n - dj - 2)).flatMap (fun dk =>
      (List.range 3).flatMap (fun ii =>
        (List.range ((n - dj - dk - ii + 2) / 3)).map (fun t =>
          (ii + 3 * t, ii + 3 * t + dj, ii + 3 * t + dj + dk)))))

/-- Embedding of `np_swap_columns(arr)` (`utils.py`, lines 10-13), acting on
one row of an `n x 3` array: it swaps columns 0 and 1, turning the row
`(a, b, c)` into `(b, a, c)`. -/
def np_swap_columns {α : Type} (row : α × α × α) : α × α × α :=
  (row.2.1, row.1, row.2.2)

/-- Embedding of `cw_or_ccw(x_triads, y_triads)` (`utils.py`, lines 15-18)
for a single triad: the determinant of the homogeneous-coordinate matrix of
the three points `(x1, y1), (x2, y2), (x3, y3)`. -/
def cw_or_ccw (x y : K × K × K) : K :=
  (Mat3.mk x.1 y.1 1 x.2.1 y.2.1 1 x.2.2 y.2.2 1).det

/-- Embedding of `is_colinear` (`utils.py`, line 21): the determinant is zero. -/
def is_colinear [LinearOrderedField K] (x y : K × K × K) : Bool :=
  decide (cw_or_ccw x y = 0)

/-- Embedding of `is_clockwise` (`utils.py`, lines 25-39): the determinant is
negative. -/
def is_clockwise [LinearOrderedField K] (x y : K × K × K) : Bool :=
  decide (cw_or_ccw x y < 0)

/-- Per-triad embedding of the clockwise-canonicalization step of
`CoplanarInvariants.from_detection_conics` (`projective_invariants.py`,
lines 149-153):

  clockwise = is_clockwise(x_triads, y_triads)
  crater_triads_cw[~clockwise] = np_swap_columns(crater_triads[~clockwise])
  x_triads[:, ~clockwise] = np_swap_columns(x_triads.T[~clockwise]).T
  y_triads[:, ~clockwise] = np_swap_columns(y_triads.T[~clockwise]).T

A clockwise triad is kept; a non-clockwise triad has `np_swap_columns`
applied to its index row and both coordinate rows. -/
def canonicalize [LinearOrderedField K] (t : Nat × Nat × Nat) (x y : K × K × K) :
    (Nat × Nat × Nat) × (K × K × K) × (K × K × K) :=
  if is_clockwise x y then (t, x, y)
  else (np_swap_columns t, np_swap_columns x, np_swap_columns y)

/-!
Embedding of the `CoplanarInvariants` engine
(`craterdetection/matching/projective_invariants.py`).
-/

/-- One input triad of `CoplanarInvariants.__init__`: its index triple
(one row of `crater_triads`) and the aligned rows of `A_i`, `A_j`, `A_k`. -/
structure TriadData (K : Type) where
  idx : Nat × Nat × Nat
  Ai : Mat3 K
  Aj : Mat3 K
  Ak : Mat3 K
deriving DecidableEq

/-- Embedding of the `overlapped_craters` mask of
`CoplanarInvariants.__init__` (`projective_invariants.py`, lines 110-114):

  overlapped_craters = ~np.logical_and.reduce((
      np.isfinite(LA.cond(A_i - A_j)),
      np.isfinite(LA.cond(A_i - A_k)),
      np.isfinite(LA.cond(A_j - A_k))))

In exact arithmetic `np.isfinite(LA.cond(M))` holds iff `M` is nonsingular,
i.e. iff `det M ≠ 0`. -/
def overlapped_craters [DecidableEq K] (t : TriadData K) : Bool :=
  ! (decide ((t.Ai.sub t.Aj).det ≠ 0) && decide ((t.Ai.sub t.Ak).det ≠ 0) &&
      decide ((t.Aj.sub t.Ak).det ≠ 0))

/-- The surviving triads stored by `CoplanarInvariants.__init__`
(`projective_invariants.py`, lines 115-116): rows with a singular pairwise
conic difference are dropped from `A_i`, `A_j`, `A_k` and from
`self.crater_triads` by boolean indexing with `~overlapped_craters`. -/
def CoplanarInvariants.survivors [DecidableEq K] (input : List (TriadData K)) :
    List (TriadData K) :=
  input.filter (fun t => ! overlapped_craters t)

/-- Embedding of `self.I_ij = np.trace(LA.inv(A_i) @ A_j, ...)`
(`projective_invariants.py`, line 121). -/
def CoplanarInvariants.I_ij (Ai Aj : Mat3 K) : K := (Ai.inv.mul Aj).trace

/-- Embedding of `self.I_ji = np.trace(LA.inv(A_j) @ A_i, ...)`
(`projective_invariants.py`, line 121). -/
def CoplanarInvariants.I_ji (Ai Aj : Mat3 K) : K := (Aj.inv.mul Ai).trace

/-- Embedding of `self.I_ik = np.trace(LA.inv(A_i) @ A_k, ...)`
(`projective_invariants.py`, line 123). -/
def CoplanarInvariants.I_ik (Ai Ak : Mat3 K) : K := (Ai.inv.mul Ak).trace

/-- Embedding of `self.I_ki = np.trace(LA.inv(A_k) @ A_i, ...)`
(`projective_invariants.py`, line 123). -/
def CoplanarInvariants.I_ki (Ai Ak : Mat3 K) : K := (Ak.inv.mul Ai).trace

/-- Embedding of `self.I_jk = np.trace(LA.inv(A_j) @ A_k, ...)`
(`projective_invariants.py`, line 125). -/
def CoplanarInvariants.I_jk (Aj Ak : Mat3 K) : K := (Aj.inv.mul Ak).trace

/-- Embedding of `self.I_kj = np.trace(LA.inv(A_k) @ A_j, ...)`
(`projective_invariants.py`, line 125). -/
def CoplanarInvariants.I_kj (Aj Ak : Mat3 K) : K := (Ak.inv.mul Aj).trace

/-- Embedding of
`self.I_ijk = np.trace((matrix_adjugate(A_j + A_k) - matrix_adjugate(A_j - A_k)) @ A_i, ...)`
(`projective_invariants.py`, line 127). -/
def CoplanarInvariants.I_ijk (Ai Aj Ak : Mat3 K) : K :=
  ((((Aj.add Ak).adjugate).sub ((Aj.sub Ak).adjugate)).mul Ai).trace

/-- Per-triad embedding of `CoplanarInvariants.get_pattern` with
`permutation_invariant=False` (`projective_invariants.py`, lines 279-288):
the row `np.column_stack((I_ij, I_ji, I_ik, I_ki, I_jk, I_kj, I_ijk))`
contributed by one surviving triad, as a 7-element list in column order.
The stored invariants are those computed by `__init__` from the filtered
(and, when `normalize_det` is set, `scale_det`-rescaled) conic matrices;
this embedding is a function of the matrices those traces are taken of. -/
def CoplanarInvariants.getPatternRaw (Ai Aj Ak : Mat3 K) : List K :=
  [CoplanarInvariants.I_ij Ai Aj, CoplanarInvariants.I_ji Ai Aj,
   CoplanarInvariants.I_ik Ai Ak, CoplanarInvariants.I_ki Ai Ak,
   CoplanarInvariants.I_jk Aj Ak, CoplanarInvariants.I_kj Aj Ak,
   CoplanarInvariants.I_ijk Ai Aj Ak]

/-- The raw-invariant rows produced by `CoplanarInvariants.__init__` followed
by `get_pattern(permutation_invariant=False)`: one 7-element row per
surviving triad, none for excluded triads. -/
def CoplanarInvariants.rawPatterns [DecidableEq K] (input : List (TriadData K)) :
    List (List K) :=
  (CoplanarInvariants.survivors input).map (fun t =>
    CoplanarInvariants.getPatternRaw t.Ai t.Aj t.Ak)

/-- A concrete degenerate triad over `ℚ` (identical first and second conic),
used to exercise the singularity filter. -/
def exampleTriadQ : TriadData ℚ :=
  ⟨(0, 1, 2), Mat3.one, Mat3.one, Mat3.mk 1 0 0 0 1 0 0 0 2⟩

/-!
Embedding of the `PermutationInvariant` namespace
(`projective_invariants.py`, lines 9-83). These formulas use `np.sqrt`,
so they are embedded over `ℝ`.
-/

/-- Embedding of `PermutationInvariant.F1(x, y, z) = x + y + z`. -/
noncomputable def PermutationInvariant.F1 (x y z : ℝ) : ℝ := x + y + z

/-- Embedding of `PermutationInvariant.F2` (`projective_invariants.py`,
lines 18-22). -/
noncomputable def PermutationInvariant.F2 (x y z : ℝ) : ℝ :=
  (2 * (x ^ 3 + y ^ 3 + z ^ 3) + 12 * x * y * z -
      3 * (x ^ 2 * y + y ^ 2 * x + y ^ 2 * z + z ^ 2 * y + z ^ 2 * x + x ^ 2 * z)) /
    (x ^ 2 + y ^ 2 + z ^ 2 - (x * y + y * z + z * x))

/-- Embedding of `PermutationInvariant.F3` (`projective_invariants.py`,
lines 24-26). -/
noncomputable def PermutationInvariant.F3 (x y z : ℝ) : ℝ :=
  (-3 * Real.sqrt 3 * (x - y) * (y - z) * (z - x)) /
    (x ^ 2 + y ^ 2 + z ^ 2 - (x * y + y * z + z * x))

/-- Embedding of `PermutationInvariant.F(x, y, z) = np.array((F1, F2, F3))`
(`projective_invariants.py`, lines 28-46). -/
noncomputable def PermutationInvariant.F (x y z : ℝ) : ℝ × ℝ × ℝ :=
  (PermutationInvariant.F1 x y z, PermutationInvariant.F2 x y z,
   PermutationInvariant.F3 x y z)

/-- Embedding of `PermutationInvariant.G1` (`projective_invariants.py`,
lines 48-50). -/
noncomputable def PermutationInvariant.G1 (x1 y1 z1 x2 y2 z2 : ℝ) : ℝ :=
  1.5 * (x1 * x2 + y1 * y2 + z1 * z2) - 0.5 * (x1 + y1 + z1) * (x2 + y2 + z2)

/-- Embedding of `PermutationInvariant.G2` (`projective_invariants.py`,
lines 52-54). -/
noncomputable def PermutationInvariant.G2 (x1 y1 z1 x2 y2 z2 : ℝ) : ℝ :=
  (Real.sqrt 3 / 2) * ((x1 * z2 + y1 * x2 + z1 * y2) - (x1 * y2 + y1 * z2 + z1 * x2))

/-- Embedding of `PermutationInvariant.G = np.array((G1, G2))`
(`projective_invariants.py`, lines 56-59). -/
noncomputable def PermutationInvariant.G (x1 y1 z1 x2 y2 z2 : ℝ) : ℝ × ℝ :=
  (PermutationInvariant.G1 x1 y1 z1 x2 y2 z2, PermutationInvariant.G2 x1 y1 z1 x2 y2 z2)

/-- Embedding of `PermutationInvariant.G_tilde` (`projective_invariants.py`,
lines 61-83): `G / np.sqrt(np.sqrt(S1 * S2))` with
`S1 = (x1-y1)^2 + (y1-z1)^2 + (z1-x1)^2` and `S2` likewise; the division
broadcasts over the two components of `G`. -/
noncomputable def PermutationInvariant.G_tilde (x1 y1 z1 x2 y2 z2 : ℝ) : ℝ × ℝ :=
  ((PermutationInvariant.G x1 y1 z1 x2 y2 z2).1 /
      Real.sqrt (Real.sqrt (((x1 - y1) ^ 2 + (y1 - z1) ^ 2 + (z1 - x1) ^ 2) *
        ((x2 - y2) ^ 2 + (y2 - z2) ^ 2 + (z2 - x2) ^ 2))),
   (PermutationInvariant.G x1 y1 z1 x2 y2 z2).2 /
      Real.sqrt (Real.sqrt (((x1 - y1) ^ 2 + (y1 - z1) ^ 2 + (z1 - x1) ^ 2) *
        ((x2 - y2) ^ 2 + (y2 - z2) ^ 2 + (z2 - x2) ^ 2))))

/-- Per-triad embedding of `CoplanarInvariants.get_pattern` with
`permutation_invariant=True` (`projective_invariants.py`, lines 271-277):
the row contributed by one surviving triad to

  np.column_stack((
      PermutationInvariant.F(I_ij, I_jk, I_ki).T,
      PermutationInvariant.F1(I_ji, I_kj, I_ik),
      PermutationInvariant.G_tilde(I_ij, I_jk, I_ki, I_ji, I_kj, I_ik).T,
      I_ijk)).T

in column order: the three components of `F`, then `F1` of the reversed
triple, then the two components of `G_tilde`, then `I_ijk`. -/
noncomputable def CoplanarInvariants.getPatternPI (Ai Aj Ak : Mat3 ℝ) : List ℝ :=
  [(PermutationInvariant.F (CoplanarInvariants.I_ij Ai Aj)
      (CoplanarInvariants.I_jk Aj Ak) (CoplanarInvariants.I_ki Ai Ak)).1,
   (PermutationInvariant.F (CoplanarInvariants.I_ij Ai Aj)
      (CoplanarInvariants.I_jk Aj Ak) (CoplanarInvariants.I_ki Ai Ak)).2.1,
   (PermutationInvariant.F (CoplanarInvariants.I_ij Ai Aj)
      (CoplanarInvariants.I_jk Aj Ak) (CoplanarInvariants.I_ki Ai Ak)).2.2,
   PermutationInvariant.F1 (CoplanarInvariants.I_ji Ai Aj)
      (CoplanarInvariants.I_kj Aj Ak) (CoplanarInvariants.I_ik Ai Ak),
   (PermutationInvariant.G_tilde (CoplanarInvariants.I_ij Ai Aj)
      (CoplanarInvariants.I_jk Aj Ak) (CoplanarInvariants.I_ki Ai Ak)
      (CoplanarInvariants.I_ji Ai Aj) (CoplanarInvariants.I_kj Aj Ak)
      (CoplanarInvariants.I_ik Ai Ak)).1,
   (PermutationInvariant.G_tilde (CoplanarInvariants.I_ij Ai Aj)
      (CoplanarInvariants.I_jk Aj Ak) (CoplanarInvariants.I_ki Ai Ak)
      (CoplanarInvariants.I_ji Ai Aj) (CoplanarInvariants.I_kj Aj Ak)
      (CoplanarInvariants.I_ik Ai Ak)).2,
   CoplanarInvariants.I_ijk Ai Aj Ak]

/-!
Embedding of `craterdetection/common/camera.py`. The trigonometric
intrinsics put this part over `ℝ`.
-/

/-- Embedding of `np.radians`: degrees to radians. -/
noncomputable def deg2rad (x : ℝ) : ℝ := x * Real.pi / 180

/-- Embedding of `camera_matrix(fov, offset, alpha)` (`camera.py`,
lines 11-46), scalar `fov`/`offset` branch:
`f_x = f_y = offset / tan(radians(fov) / 2)` and

  K = [[f_x, alpha, x_0], [0, f_y, y_0], [0, 0, 1]]. -/
noncomputable def camera_matrix (fov offset alpha : ℝ) : Mat3 ℝ :=
  ⟨offset / Real.tan (deg2rad fov / 2), alpha, offset,
   0, offset / Real.tan (deg2rad fov / 2), offset,
   0, 0, 1⟩

/-- Embedding of `projection_matrix(K, T, r)` (`camera.py`, lines 49-78):
`r_C = T @ r` and `P = K @ [T | -r_C] = [K @ T | -(K @ r_C)]`. -/
def projection_matrix (Kmat T : Mat3 K) (r : Vec3 K) : Mat34 K :=
  ⟨Kmat.mul T, (Kmat.mulVec (T.mulVec r)).neg⟩

/-- Modelled from the spec: `ENU_system(p)` lives in
`craterdetection/common/coordinates.py`, which is not part of the supplied
sources. Per the spec it builds a local East-North-Up frame at `p`:
up is `p` normalized, east is `k x p` normalized (`k = (0, 0, 1)` the
reference polar axis, undefined when `p` lies on it), north completes the
right-handed frame. Returns `(e, n, u)` in the order unpacked by
`crater_camera_homography`. -/
noncomputable def ENU_system (p : Vec3 ℝ) : Vec3 ℝ × Vec3 ℝ × Vec3 ℝ :=
  let u := p.sdiv p.norm
  let e := (Vec3.cross ⟨0, 0, 1⟩ p).sdiv (Vec3.cross ⟨0, 0, 1⟩ p).norm
  let n := (Vec3.cross u e).sdiv (Vec3.cross u e).norm
  (e, n, u)

/-- Embedding of `crater_camera_homography(p, P_MC)` (`camera.py`,
lines 81-106) for one crater: with `(e, n, u) = ENU_system(p)`,
`H_Mi = [T_EM @ S | p] = [e | n | p]`, and

  H_Ci = P_MC @ [[H_Mi], [k^T]] = M @ H_Mi + [0 | 0 | c]

for `P_MC = [M | c]` and `k = (0, 0, 1)`. -/
noncomputable def crater_camera_homography (p : Vec3 ℝ) (P_MC : Mat34 ℝ) : Mat3 ℝ :=
  (P_MC.M.mul (Mat3.ofCols (ENU_system p).1 (ENU_system p).2.1 p)).addCol3 P_MC.c

/-- Embedding of `project_craters(C, p, fov, resolution, T_CM, r_M)`
(`camera.py`, lines 108-145), scalar `resolution` branch: per crater `n`,
with `H_n = crater_camera_homography(p_n, P_MC)`,

  offset = resolution / 2
  T_MC = LA.inv(T_CM)
  K = camera_matrix(fov, offset)
  P_MC = projection_matrix(K, T_MC, r_M)
  return LA.inv(H_Ci).transpose((0, 2, 1)) @ C @ LA.inv(H_Ci)

batched over the aligned lists `C` and `p`. -/
noncomputable def project_craters (C : List (Mat3 ℝ)) (p : List (Vec3 ℝ))
    (fov resolution : ℝ) (T_CM : Mat3 ℝ) (r_M : Vec3 ℝ) : List (Mat3 ℝ) :=
  let offset := resolution / 2
  let T_MC := T_CM.inv
  let Kmat := camera_matrix fov offset 0
  let P_MC := projection_matrix Kmat T_MC r_M
  List.zipWith (fun Cn pn =>
    (((crater_camera_homography pn P_MC).inv.transpose).mul Cn).mul
      (crater_camera_homography pn P_MC).inv) C p

/-- The attitude matrix derived by `Camera.__init__` (`camera.py`,
lines 165-176) when no attitude is supplied:

  k = np.array([0., 0., 1.])[:, None]
  Z_ax_cam = -(r / LA.norm(r))
  X_ax_cam = np.cross(k, r, axis=0); X_ax_cam /= LA.norm(X_ax_cam, ord=2)
  Y_ax_cam = np.cross(Z_ax_cam, X_ax_cam, axis=0); Y_ax_cam /= LA.norm(Y_ax_cam)
  T = np.concatenate((X_ax_cam, Y_ax_cam, Z_ax_cam), axis=-1)

For `r` on the polar axis, `cross(k, r) = 0` and numpy's `0.0 / 0.0`
produces a non-finite column; total field division models it as the zero
column. Either way the basis is rank-deficient. -/
noncomputable def Camera.deriveT (r : Vec3 ℝ) : Mat3 ℝ :=
  let Z := (r.sdiv r.norm).neg
  let X := (Vec3.cross ⟨0, 0, 1⟩ r).sdiv (Vec3.cross ⟨0, 0, 1⟩ r).norm
  let Y := (Vec3.cross Z X).sdiv (Vec3.cross Z X).norm
  Mat3.ofCols X Y Z

/-- The state held by a successfully constructed `Camera` (`camera.py`,
lines 147-178). -/
structure CameraState where
  r : Vec3 ℝ
  T : Mat3 ℝ
  fov : ℝ
  resolution : ℝ
  alpha : ℝ

/-- Embedding of `Camera.__init__(r, T, fov, resolution, alpha)`
(`camera.py`, lines 152-178). When `T` is supplied it is stored as given;
otherwise the nadir-pointing attitude is derived from `r` alone and the
construction raises `ValueError("Invalid camera attitude matrix!")` when
`LA.matrix_rank(T) != 3`, which for a 3x3 matrix in exact arithmetic is
`det T = 0`. The raised exception is modelled as `Except.error`. -/
noncomputable def Camera.init (r : Vec3 ℝ) (T : Option (Mat3 ℝ))
    (fov resolution alpha : ℝ) : Except String CameraState :=
  match T with
  | some T0 => Except.ok ⟨r, T0, fov, resolution, alpha⟩
  | none =>
    let T0 := Camera.deriveT r
    if T0.det = 0 then Except.error ("Invalid camera attitude matrix!")
    else Except.ok ⟨r, T0, fov, resolution, alpha⟩

/-!
Embedding of the classmethods of `CoplanarInvariants`
(`projective_invariants.py`, lines 129-250). `from_detection_conics`
dereferences the names `x_pix` and `y_pix`, which are neither parameters,
nor locals assigned before that line, nor module-level globals, so Python
raises `NameError` there on every call; the raised exception is modelled
as `Except.error`, and the (unreachable) remainder of the body, which
contains no `return` statement, could only produce `None`.
-/

/-- The names bound in the scope of
`CoplanarInvariants.from_detection_conics` (`projective_invariants.py`,
lines 129-164): its parameters and every name assigned anywhere in its
body (Python function scope), transcribed from the source. -/
def from_detection_conics_bound_names : List String :=
  ["cls", "A_craters", "crater_triads", "n_det", "n_comb", "it", "i", "j", "k",
   "x_triads", "y_triads", "clockwise", "crater_triads_cw", "line"]

/-- Modelled from the spec: `crater_representation(a, b, psi, x, y)` lives in
`craterdetection/common/conics.py`, which is not part of the supplied
sources. Per the spec it returns the symmetric 3x3 conic matrix of the
ellipse with semi-axes `a`, `b`, rotation `psi` and center `(x, y)`; the
standard such matrix is used here. Its value is irrelevant to the theorems
below, which only use that it is total. -/
noncomputable def crater_representation (a b psi x y : ℝ) : Mat3 ℝ :=
  let A := a ^ 2 * Real.sin psi ^ 2 + b ^ 2 * Real.cos psi ^ 2
  let B := 2 * (b ^ 2 - a ^ 2) * Real.sin psi * Real.cos psi
  let C := a ^ 2 * Real.cos psi ^ 2 + b ^ 2 * Real.sin psi ^ 2
  let D := -2 * A * x - B * y
  let E := -B * x - 2 * C * y
  let F := A * x ^ 2 + B * x * y + C * y ^ 2 - a ^ 2 * b ^ 2
  ⟨A, B / 2, D / 2, B / 2, C, E / 2, D / 2, E / 2, F⟩

/-- Result type of the (never successful) construction of a
`CoplanarInvariants` instance by the classmethods: an exception message or
an instance (the stored surviving triads). -/
def InvariantResult := Except String (List (TriadData ℝ))

/-- Embedding of `CoplanarInvariants.from_detection_conics(A_craters,
crater_triads)` (`projective_invariants.py`, lines 129-164). When
`crater_triads is None` the triads are generated by
`enhanced_pattern_shifting`; the next executed statement,

  x_triads, y_triads = x_pix[crater_triads].T, y_pix[crater_triads].T

reads the unbound names `x_pix` and `y_pix` and raises `NameError`. -/
noncomputable def CoplanarInvariants.from_detection_conics
    (A_craters : List (Mat3 ℝ)) (crater_triads : Option (List (Nat × Nat × Nat))) :
    InvariantResult :=
  let _triads := match crater_triads with
    | some t => t
    | none => enhanced_pattern_shifting A_craters.length
  Except.error ("NameError: name x_pix is not defined")

/-- Embedding of `CoplanarInvariants.from_detection(x_pix, y_pix, a_pix,
b_pix, psi_pix, convert_to_radians, crater_triads)`
(`projective_invariants.py`, lines 196-202): converts `psi` to radians when
requested, builds the conic matrices with `crater_representation`, and
delegates to `from_detection_conics`. -/
noncomputable def CoplanarInvariants.from_detection
    (x_pix y_pix a_pix b_pix psi_pix : List ℝ) (convert_to_radians : Bool)
    (crater_triads : Option (List (Nat × Nat × Nat))) : InvariantResult :=
  let psi := if convert_to_radians then psi_pix.map deg2rad else psi_pix
  let A_craters :=
    (a_pix.zip (b_pix.zip (psi.zip (x_pix.zip y_pix)))).map (fun q =>
      crater_representation q.1 q.2.1 q.2.2.1 q.2.2.2.1 q.2.2.2.2)
  CoplanarInvariants.from_detection_conics A_craters crater_triads

/-- Embedding of `CoplanarInvariants.match_generator(x_pix, y_pix, a_pix,
b_pix, psi_pix, convert_to_radians)` (`projective_invariants.py`,
lines 204-250): for each triad of `enhanced_pattern_shifting(len(x_pix))`,
yields the triad together with the outcome of
`cls.from_detection(..., crater_triads)` for that single triad. -/
noncomputable def CoplanarInvariants.match_generator
    (x_pix y_pix a_pix b_pix psi_pix : List ℝ) (convert_to_radians : Bool) :
    List ((Nat × Nat × Nat) × InvariantResult) :=
  (enhanced_pattern_shifting x_pix.length).map (fun t =>
    (t, CoplanarInvariants.from_detection x_pix y_pix a_pix b_pix psi_pix
          convert_to_radians (some [t])))

/-!
Helper lemmas: the embedded 3x3 linear algebra.
-/

/-- Left identity for the embedded matrix product. -/
theorem Mat3.one_mul (A : Mat3 K) : Mat3.one.mul A = A := by
  ext <;> simp [Mat3.mul, Mat3.one]

/-- Right identity for the embedded matrix product. -/
theorem Mat3.mul_one (A : Mat3 K) : A.mul Mat3.one = A := by
  ext <;> simp [Mat3.mul, Mat3.one]

/-- Associativity of the embedded matrix product. -/
theorem Mat3.mul_assoc (A B C : Mat3 K) : (A.mul B).mul C = A.mul (B.mul C) := by
  ext <;> simp only [Mat3.mul] <;> ring

/-- Scalars move out of the left factor of a product. -/
theorem Mat3.smul_mul (s : K) (A B : Mat3 K) :
    (Mat3.smul s A).mul B = Mat3.smul s (A.mul B) := by
  ext <;> simp only [Mat3.mul, Mat3.smul] <;> ring

/-- Scalars move out of the right factor of a product. -/
theorem Mat3.mul_smul (s : K) (A B : Mat3 K) :
    A.mul (Mat3.smul s B) = Mat3.smul s (A.mul B) := by
  ext <;> simp only [Mat3.mul, Mat3.smul] <;> ring

/-- Composition of scalar multiples. -/
theorem Mat3.smul_smul (s t : K) (A : Mat3 K) :
    Mat3.smul s (Mat3.smul t A) = Mat3.smul (s * t) A := by
  ext <;> simp only [Mat3.smul] <;> ring

/-- Scalar one acts trivially. -/
theorem Mat3.one_smul (A : Mat3 K) : Mat3.smul 1 A = A := by
  ext <;> simp [Mat3.smul]

/-- The adjugate identity `adj A * A = det A * I`. -/
theorem Mat3.adjugate_mul (A : Mat3 K) :
    A.adjugate.mul A = Mat3.smul A.det Mat3.one := by
  ext <;> simp only [Mat3.mul, Mat3.adjugate, Mat3.smul, Mat3.det, Mat3.one] <;> ring

/-- The adjugate identity `A * adj A = det A * I`. -/
theorem Mat3.mul_adjugate (A : Mat3 K) :
    A.mul A.adjugate = Mat3.smul A.det Mat3.one := by
  ext <;> simp only [Mat3.mul, Mat3.adjugate, Mat3.smul, Mat3.det, Mat3.one] <;> ring

/-- Multiplicativity of the embedded determinant. -/
theorem Mat3.det_mul (A B : Mat3 K) : (A.mul B).det = A.det * B.det := by
  simp only [Mat3.mul, Mat3.det]; ring

/-- Determinant of the identity. -/
theorem Mat3.det_one : (Mat3.one : Mat3 K).det = 1 := by
  simp [Mat3.det, Mat3.one]

/-- On nonsingular input, `Mat3.inv` is a left inverse. -/
theorem Mat3.inv_mul_cancel (A : Mat3 K) (h : A.det ≠ 0) :
    A.inv.mul A = Mat3.one := by
  rw [Mat3.inv, Mat3.smul_mul, Mat3.adjugate_mul, Mat3.smul_smul,
    one_div_mul_cancel h, Mat3.one_smul]

/-- On nonsingular input, `Mat3.inv` is a right inverse. -/
theorem Mat3.mul_inv_cancel (A : Mat3 K) (h : A.det ≠ 0) :
    A.mul A.inv = Mat3.one := by
  rw [Mat3.inv, Mat3.mul_smul, Mat3.mul_adjugate, Mat3.smul_smul,
    one_div_mul_cancel h, Mat3.one_smul]

/-- A two-sided inverse is nonsingular and equals `Mat3.inv`: the embedded
`numpy.linalg.inv` computes THE matrix inverse. -/
theorem Mat3.inv_unique (A B : Mat3 K) (h1 : A.mul B = Mat3.one)
    (_h2 : B.mul A = Mat3.one) : B = A.inv := by
  have hdet : A.det ≠ 0 := by
    intro h0
    have := congrArg Mat3.det h1
    rw [Mat3.det_mul, Mat3.det_one, h0, zero_mul] at this
    exact zero_ne_one this
  calc B = Mat3.one.mul B := (Mat3.one_mul B).symm
    _ = (A.inv.mul A).mul B := by rw [Mat3.inv_mul_cancel A hdet]
    _ = A.inv.mul (A.mul B) := Mat3.mul_assoc _ _ _
    _ = A.inv.mul Mat3.one := by rw [h1]
    _ = A.inv := Mat3.mul_one _

/-!
Claims about the triad enumerator.
-/

/-- C1. The claim states that for every `N >= 3` the enumerator
`enhanced_pattern_shifting(N)` yields exactly `C(N, 3)` triples covering
every 3-combination of `{0..N-1}` exactly once. The code does not: its loop
bounds `range(1, n-2)` and `range(1, n-dj-1)` stop one short of the gap
sizes needed (the referenced Enhanced Pattern Shifting algorithm runs
`dj` up to `n-2` and `dk` up to `n-dj-1` inclusive), so triples are missed:
for `N = 3` it yields no triple at all instead of `C(3,3) = 1`, and for
`N = 4` it yields only `(0,1,2)` and `(1,2,3)` instead of `C(4,3) = 4`,
missing `(0,1,3)` and `(0,2,3)`. This contradicts the enumerator's own
caller `from_detection_conics`, which allocates exactly `C(n,3)` triad rows
and fills one per yielded triple. -/
theorem C1_eps_misses_triples :
    enhanced_pattern_shifting 3 = [] ∧ Nat.choose 3 3 = 1 ∧
      enhanced_pattern_shifting 4 = [(0, 1, 2), (1, 2, 3)] ∧ Nat.choose 4 3 = 4 := by
  refine ⟨by decide, by decide, by decide, by decide⟩

/-- C9. For every `N < 3` the triad enumerator returns an empty sequence
(no triple is yielded and no error is raised): the outermost loop
`range(1, n-2)` is empty. -/
theorem C9_eps_empty_below_three (n : Nat) (h : n < 3) :
    enhanced_pattern_shifting n = [] := by
  interval_cases n <;> decide

/-- Witness for C9 at `n = 2`. -/
theorem C9_eps_empty_below_three_witness :
    2 < 3 ∧ enhanced_pattern_shifting 2 = [] :=
  ⟨by decide, C9_eps_empty_below_three 2 (by decide)⟩

/-!
Claims about the invariant engine.
-/

/-- C2. For every surviving triad of conic matrices `(A_i, A_j, A_k)` (here:
matrices admitting two-sided inverses `B_i, B_j, B_k`, which is what
surviving the singularity filter and `LA.inv` succeeding amount to in exact
arithmetic), the engine computes the seven raw invariants as traces of
matrix products, `I_ij = tr(A_i^-1 A_j)`, `I_ji = tr(A_j^-1 A_i)`,
analogously for `(i,k)` and `(j,k)`, and
`I_ijk = tr((adj(A_j + A_k) - adj(A_j - A_k)) A_i)`; `get_pattern` in raw
mode emits them per triad in the pairing order
`(I_ij, I_ji, I_ik, I_ki, I_jk, I_kj, I_ijk)`. -/
theorem C2_raw_pattern_traces {K : Type} [Field K] (Ai Aj Ak Bi Bj Bk : Mat3 K)
    (hi1 : Ai.mul Bi = Mat3.one) (hi2 : Bi.mul Ai = Mat3.one)
    (hj1 : Aj.mul Bj = Mat3.one) (hj2 : Bj.mul Aj = Mat3.one)
    (hk1 : Ak.mul Bk = Mat3.one) (hk2 : Bk.mul Ak = Mat3.one) :
    CoplanarInvariants.getPatternRaw Ai Aj Ak =
      [(Bi.mul Aj).trace, (Bj.mul Ai).trace,
       (Bi.mul Ak).trace, (Bk.mul Ai).trace,
       (Bj.mul Ak).trace, (Bk.mul Aj).trace,
       ((((Aj.add Ak).adjugate).sub ((Aj.sub Ak).adjugate)).mul Ai).trace] := by
  rw [Mat3.inv_unique Ai Bi hi1 hi2, Mat3.inv_unique Aj Bj hj1 hj2,
    Mat3.inv_unique Ak Bk hk1 hk2]
  rfl

/-- Witness for C2 at concrete rational diagonal matrices. -/
theorem C2_raw_pattern_traces_witness :
    ((Mat3.mk 1 0 0 0 1 0 0 0 1 : Mat3 ℚ).mul (Mat3.mk 1 0 0 0 1 0 0 0 1) = Mat3.one ∧
     (Mat3.mk 1 0 0 0 1 0 0 0 2 : Mat3 ℚ).mul (Mat3.mk 1 0 0 0 1 0 0 0 (1/2)) = Mat3.one ∧
     (Mat3.mk 1 0 0 0 2 0 0 0 1 : Mat3 ℚ).mul (Mat3.mk 1 0 0 0 (1/2) 0 0 0 1) = Mat3.one) ∧
    CoplanarInvariants.getPatternRaw (Mat3.mk 1 0 0 0 1 0 0 0 1 : Mat3 ℚ)
        (Mat3.mk 1 0 0 0 1 0 0 0 2) (Mat3.mk 1 0 0 0 2 0 0 0 1) =
      [((Mat3.mk 1 0 0 0 1 0 0 0 1 : Mat3 ℚ).mul (Mat3.mk 1 0 0 0 1 0 0 0 2)).trace,
       ((Mat3.mk 1 0 0 0 1 0 0 0 (1/2) : Mat3 ℚ).mul (Mat3.mk 1 0 0 0 1 0 0 0 1)).trace,
       ((Mat3.mk 1 0 0 0 1 0 0 0 1 : Mat3 ℚ).mul (Mat3.mk 1 0 0 0 2 0 0 0 1)).trace,
       ((Mat3.mk 1 0 0 0 (1/2) 0 0 0 1 : Mat3 ℚ).mul (Mat3.mk 1 0 0 0 1 0 0 0 1)).trace,
       ((Mat3.mk 1 0 0 0 1 0 0 0 (1/2) : Mat3 ℚ).mul (Mat3.mk 1 0 0 0 2 0 0 0 1)).trace,
       ((Mat3.mk 1 0 0 0 (1/2) 0 0 0 1 : Mat3 ℚ).mul (Mat3.mk 1 0 0 0 1 0 0 0 2)).trace,
       (((((Mat3.mk 1 0 0 0 1 0 0 0 2 : Mat3 ℚ).add (Mat3.mk 1 0 0 0 2 0 0 0 1)).adjugate).sub
          (((Mat3.mk 1 0 0 0 1 0 0 0 2 : Mat3 ℚ).sub (Mat3.mk 1 0 0 0 2 0 0 0 1)).adjugate)).mul
          (Mat3.mk 1 0 0 0 1 0 0 0 1)).trace] :=
  ⟨⟨by ext <;> norm_num [Mat3.mul, Mat3.one],
    by ext <;> norm_num [Mat3.mul, Mat3.one],
    by ext <;> norm_num [Mat3.mul, Mat3.one]⟩,
   C2_raw_pattern_traces (Mat3.mk 1 0 0 0 1 0 0 0 1) (Mat3.mk 1 0 0 0 1 0 0 0 2)
     (Mat3.mk 1 0 0 0 2 0 0 0 1) (Mat3.mk 1 0 0 0 1 0 0 0 1)
     (Mat3.mk 1 0 0 0 1 0 0 0 (1/2)) (Mat3.mk 1 0 0 0 (1/2) 0 0 0 1)
     (by ext <;> norm_num [Mat3.mul, Mat3.one])
     (by ext <;> norm_num [Mat3.mul, Mat3.one])
     (by ext <;> norm_num [Mat3.mul, Mat3.one])
     (by ext <;> norm_num [Mat3.mul, Mat3.one])
     (by ext <;> norm_num [Mat3.mul, Mat3.one])
     (by ext <;> norm_num [Mat3.mul, Mat3.one])⟩

/-- C3. Any triad whose pairwise conic differences include a singular matrix
(in particular one with `A_i = A_j`) is excluded by
`CoplanarInvariants.__init__` before invariant computation: it is removed
from the stored `crater_triads` (no surviving row is it, and under
index-injectivity of the input its index triple is absent), and the raw
invariant rows are exactly one per surviving triad, so none is produced for
it; the filter is a total boolean mask, so no exception is raised. -/
theorem C3_singular_difference_excluded {K : Type} [Field K] [DecidableEq K]
    (input : List (TriadData K)) (t : TriadData K)
    (h : (t.Ai.sub t.Aj).det = 0 ∨ (t.Ai.sub t.Ak).det = 0 ∨
      (t.Aj.sub t.Ak).det = 0 ∨ t.Ai = t.Aj)
    (hidx : ∀ s ∈ input, s.idx = t.idx → s = t) :
    t ∉ CoplanarInvariants.survivors input ∧
    t.idx ∉ (CoplanarInvariants.survivors input).map TriadData.idx ∧
    CoplanarInvariants.rawPatterns input =
      (CoplanarInvariants.survivors input).map (fun s =>
        CoplanarInvariants.getPatternRaw s.Ai s.Aj s.Ak) := by
  have hd : (t.Ai.sub t.Aj).det = 0 ∨ (t.Ai.sub t.Ak).det = 0 ∨
      (t.Aj.sub t.Ak).det = 0 := by
    rcases h with h | h | h | h
    · exact Or.inl h
    · exact Or.inr (Or.inl h)
    · exact Or.inr (Or.inr h)
    · left; rw [h]; simp [Mat3.sub, Mat3.det]
  have hnot : t ∉ CoplanarInvariants.survivors input := by
    intro hm
    rw [CoplanarInvariants.survivors, List.mem_filter] at hm
    have hp := hm.2
    simp only [overlapped_craters, Bool.not_not, Bool.and_eq_true,
      decide_eq_true_eq] at hp
    rcases hd with h0 | h0 | h0
    · exact hp.1.1 h0
    · exact hp.1.2 h0
    · exact hp.2 h0
  refine ⟨hnot, ?_, rfl⟩
  intro hm
  rw [List.mem_map] at hm
  obtain ⟨s, hs, hseq⟩ := hm
  have hsin : s ∈ input := List.mem_of_mem_filter hs
  have : s = t := hidx s hsin hseq
  exact hnot (this ▸ hs)

/-- Witness for C3: a singleton batch whose only triad has `A_i = A_j`. -/
theorem C3_singular_difference_excluded_witness :
    exampleTriadQ.Ai = exampleTriadQ.Aj ∧
    (exampleTriadQ ∉ CoplanarInvariants.survivors [exampleTriadQ] ∧
     exampleTriadQ.idx ∉ (CoplanarInvariants.survivors [exampleTriadQ]).map TriadData.idx ∧
     CoplanarInvariants.rawPatterns [exampleTriadQ] =
       (CoplanarInvariants.survivors [exampleTriadQ]).map (fun s =>
         CoplanarInvariants.getPatternRaw s.Ai s.Aj s.Ak)) :=
  ⟨rfl,
   C3_singular_difference_excluded [exampleTriadQ] exampleTriadQ
     (Or.inr (Or.inr (Or.inr rfl)))
     (by intro s hs _hseq; simpa using hs)⟩

/-- Cyclic invariance of `F1`. -/
theorem PermutationInvariant.F1_cyclic (x y z : ℝ) :
    PermutationInvariant.F1 x y z = PermutationInvariant.F1 y z x := by
  simp only [PermutationInvariant.F1]; ring

/-- Cyclic invariance of `F2`: numerator and denominator are symmetric
polynomials. -/
theorem PermutationInvariant.F2_cyclic (x y z : ℝ) :
    PermutationInvariant.F2 x y z = PermutationInvariant.F2 y z x := by
  simp only [PermutationInvariant.F2]
  congr 1 <;> ring

/-- Cyclic invariance of `F3`: `(x-y)(y-z)(z-x)` is cyclic. -/
theorem PermutationInvariant.F3_cyclic (x y z : ℝ) :
    PermutationInvariant.F3 x y z = PermutationInvariant.F3 y z x := by
  simp only [PermutationInvariant.F3]
  congr 1 <;> ring

/-- Invariance of the first `G_tilde` component under a simultaneous cyclic
shift of both triples. -/
theorem PermutationInvariant.G_tilde_cyclic_fst (x1 y1 z1 x2 y2 z2 : ℝ) :
    (PermutationInvariant.G_tilde x1 y1 z1 x2 y2 z2).1 =
      (PermutationInvariant.G_tilde y1 z1 x1 y2 z2 x2).1 := by
  simp only [PermutationInvariant.G_tilde, PermutationInvariant.G]
  congr 1
  · simp only [PermutationInvariant.G1]; ring
  · congr 1
    congr 1
    ring

/-- Invariance of the second `G_tilde` component under a simultaneous cyclic
shift of both triples. -/
theorem PermutationInvariant.G_tilde_cyclic_snd (x1 y1 z1 x2 y2 z2 : ℝ) :
    (PermutationInvariant.G_tilde x1 y1 z1 x2 y2 z2).2 =
      (PermutationInvariant.G_tilde y1 z1 x1 y2 z2 x2).2 := by
  simp only [PermutationInvariant.G_tilde, PermutationInvariant.G]
  congr 1
  · simp only [PermutationInvariant.G2]; ring
  · congr 1
    congr 1
    ring

/-- Cyclic invariance of the trilinear invariant
`I_ijk = tr((adj(A_j + A_k) - adj(A_j - A_k)) A_i)`: it is the polarization
of the determinant, a symmetric trilinear form. -/
theorem CoplanarInvariants.I_ijk_cyclic {K : Type} [Field K] (A B C : Mat3 K) :
    CoplanarInvariants.I_ijk A B C = CoplanarInvariants.I_ijk B C A := by
  simp only [CoplanarInvariants.I_ijk, Mat3.add, Mat3.sub, Mat3.adjugate,
    Mat3.mul, Mat3.trace]
  ring

/-- C4. The permutation-invariant feature row computed by `get_pattern` with
`permutation_invariant=True` is invariant under the cyclic rotation
`(A, B, C) -> (B, C, A)` of the triad (proved for all conic triples, hence
in particular for those surviving the singularity filter), while the raw
7-invariant row need not be: at the rational diagonal triple
`(I, diag(2,1,1), diag(1,3,1))` the raw rows of the triad and of its
rotation differ. -/
theorem C4_pattern_cyclic_rotation :
    (∀ A B C : Mat3 ℝ, CoplanarInvariants.getPatternPI A B C =
        CoplanarInvariants.getPatternPI B C A) ∧
    CoplanarInvariants.getPatternRaw (Mat3.one : Mat3 ℚ)
        (Mat3.mk 2 0 0 0 1 0 0 0 1) (Mat3.mk 1 0 0 0 3 0 0 0 1) ≠
      CoplanarInvariants.getPatternRaw (Mat3.mk 2 0 0 0 1 0 0 0 1 : Mat3 ℚ)
        (Mat3.mk 1 0 0 0 3 0 0 0 1) Mat3.one := by
  constructor
  · intro A B C
    simp only [CoplanarInvariants.getPatternPI, PermutationInvariant.F,
      CoplanarInvariants.I_ij, CoplanarInvariants.I_ji, CoplanarInvariants.I_ik,
      CoplanarInvariants.I_ki, CoplanarInvariants.I_jk, CoplanarInvariants.I_kj]
    congr 1
    · exact PermutationInvariant.F1_cyclic _ _ _
    congr 1
    · exact PermutationInvariant.F2_cyclic _ _ _
    congr 1
    · exact PermutationInvariant.F3_cyclic _ _ _
    congr 1
    · exact PermutationInvariant.F1_cyclic _ _ _
    congr 1
    · exact PermutationInvariant.G_tilde_cyclic_fst _ _ _ _ _ _
    congr 1
    · exact PermutationInvariant.G_tilde_cyclic_snd _ _ _ _ _ _
    congr 1
    exact CoplanarInvariants.I_ijk_cyclic _ _ _
  · intro heq
    have h0 := congrArg List.headI heq
    simp only [CoplanarInvariants.getPatternRaw, CoplanarInvariants.I_ij,
      List.headI, Mat3.inv, Mat3.adjugate, Mat3.det, Mat3.smul, Mat3.mul,
      Mat3.trace, Mat3.one] at h0
    norm_num at h0

/-- Swapping the first two points of a triad negates the orientation
determinant. -/
theorem cw_or_ccw_swap {K : Type} [Field K] (x y : K × K × K) :
    cw_or_ccw (np_swap_columns x) (np_swap_columns y) = -cw_or_ccw x y := by
  simp only [cw_or_ccw, np_swap_columns, Mat3.det]
  ring

/-- C5 counterexample. The claim states that a non-clockwise, non-colinear
triad `(i, j, k)` becomes `(i, k, j)` (last two indices swapped). At the
concrete counter-clockwise triad `(0, 1, 2)` with points
`(0,0), (1,0), (0,1)` the canonicalization of the source
(`np_swap_columns`, which swaps columns 0 and 1) instead produces
`(1, 0, 2)`, which differs from the claimed `(0, 2, 1)`. -/
theorem C5_counterexample :
    canonicalize ((0 : ℕ), 1, 2) (((0 : ℚ), 1, 0)) (((0 : ℚ), 0, 1)) =
      ((1, 0, 2), (((1 : ℚ), 0, 0)), (((0 : ℚ), 0, 1))) ∧
    ((1, 0, 2) : ℕ × ℕ × ℕ) ≠ ((0, 2, 1) : ℕ × ℕ × ℕ) := by
  have hcw : is_clockwise (((0 : ℚ), 1, 0)) (((0 : ℚ), 0, 1)) = false := by
    simp only [is_clockwise, decide_eq_false_iff_not]
    norm_num [cw_or_ccw, Mat3.det]
  exact ⟨by simp [canonicalize, hcw, np_swap_columns], by decide⟩

/-- C5 (amended). For every triad whose three member points are not in
clockwise image-plane order and not colinear, the canonicalization step
swaps the FIRST two indices of the triad (and correspondingly their
coordinate columns), so a non-clockwise, non-colinear triad `(i, j, k)`
becomes the clockwise triad `(j, i, k)`. -/
theorem C5_swap_first_two {K : Type} [LinearOrderedField K] (i j k : ℕ)
    (x y : K × K × K) (hcw : is_clockwise x y = false)
    (hcol : is_colinear x y = false) :
    canonicalize (i, j, k) x y =
      ((j, i, k), np_swap_columns x, np_swap_columns y) ∧
    is_clockwise (np_swap_columns x) (np_swap_columns y) = true := by
  have h1 : ¬cw_or_ccw x y < 0 := by
    simpa [is_clockwise] using hcw
  have h2 : cw_or_ccw x y ≠ 0 := by
    simpa [is_colinear] using hcol
  have h3 : 0 < cw_or_ccw x y := lt_of_le_of_ne (not_lt.mp h1) (Ne.symm h2)
  constructor
  · simp [canonicalize, hcw, np_swap_columns]
  · rw [is_clockwise, cw_or_ccw_swap]
    have h4 : -cw_or_ccw x y < 0 := neg_lt_zero.mpr h3
    simp [h4]

/-- Witness for the amended C5 at the counter-clockwise points
`(0,0), (1,0), (0,1)`. -/
theorem C5_swap_first_two_witness :
    is_clockwise (((0 : ℚ), 1, 0)) (((0 : ℚ), 0, 1)) = false ∧
    is_colinear (((0 : ℚ), 1, 0)) (((0 : ℚ), 0, 1)) = false ∧
    (canonicalize ((0 : ℕ), 1, 2) (((0 : ℚ), 1, 0)) (((0 : ℚ), 0, 1)) =
        ((1, 0, 2), np_swap_columns (((0 : ℚ), 1, 0)),
          np_swap_columns (((0 : ℚ), 0, 1))) ∧
      is_clockwise (np_swap_columns (((0 : ℚ), 1, 0)))
        (np_swap_columns (((0 : ℚ), 0, 1))) = true) := by
  have hcw : is_clockwise (((0 : ℚ), 1, 0)) (((0 : ℚ), 0, 1)) = false := by
    simp only [is_clockwise, decide_eq_false_iff_not]
    norm_num [cw_or_ccw, Mat3.det]
  have hcol : is_colinear (((0 : ℚ), 1, 0)) (((0 : ℚ), 0, 1)) = false := by
    simp only [is_colinear, decide_eq_false_iff_not]
    norm_num [cw_or_ccw, Mat3.det]
  exact ⟨hcw, hcol, C5_swap_first_two 0 1 2 _ _ hcw hcol⟩

/-- C6 counterexample. The claim states that `get_pattern` with
`permutation_invariant=True` returns exactly 6 values per triad; at the
concrete triad `(I, I, I)` the row has 7 entries, because the code stacks
`F` (3 values), `F1` of the reversed triple (1 value), `G_tilde`
(2 values) and `I_ijk` (1 value). -/
theorem C6_counterexample :
    (CoplanarInvariants.getPatternPI Mat3.one Mat3.one Mat3.one).length ≠ 6 := by
  simp only [CoplanarInvariants.getPatternPI, List.length_cons, List.length_nil]
  decide

/-- C6 (amended). For every triad, `get_pattern` with
`permutation_invariant=True` returns exactly 7 feature values, namely
`(F1, F2, F3, F1(I_ji, I_kj, I_ik), G1-tilde, G2-tilde, I_ijk)`, while raw
mode returns 7 values as well. -/
theorem C6_pattern_shapes (Ai Aj Ak : Mat3 ℝ) :
    (CoplanarInvariants.getPatternPI Ai Aj Ak).length = 7 ∧
    CoplanarInvariants.getPatternPI Ai Aj Ak =
      [PermutationInvariant.F1 (CoplanarInvariants.I_ij Ai Aj)
         (CoplanarInvariants.I_jk Aj Ak) (CoplanarInvariants.I_ki Ai Ak),
       PermutationInvariant.F2 (CoplanarInvariants.I_ij Ai Aj)
         (CoplanarInvariants.I_jk Aj Ak) (CoplanarInvariants.I_ki Ai Ak),
       PermutationInvariant.F3 (CoplanarInvariants.I_ij Ai Aj)
         (CoplanarInvariants.I_jk Aj Ak) (CoplanarInvariants.I_ki Ai Ak),
       PermutationInvariant.F1 (CoplanarInvariants.I_ji Ai Aj)
         (CoplanarInvariants.I_kj Aj Ak) (CoplanarInvariants.I_ik Ai Ak),
       (PermutationInvariant.G_tilde (CoplanarInvariants.I_ij Ai Aj)
         (CoplanarInvariants.I_jk Aj Ak) (CoplanarInvariants.I_ki Ai Ak)
         (CoplanarInvariants.I_ji Ai Aj) (CoplanarInvariants.I_kj Aj Ak)
         (CoplanarInvariants.I_ik Ai Ak)).1,
       (PermutationInvariant.G_tilde (CoplanarInvariants.I_ij Ai Aj)
         (CoplanarInvariants.I_jk Aj Ak) (CoplanarInvariants.I_ki Ai Ak)
         (CoplanarInvariants.I_ji Ai Aj) (CoplanarInvariants.I_kj Aj Ak)
         (CoplanarInvariants.I_ik Ai Ak)).2,
       CoplanarInvariants.I_ijk Ai Aj Ak] ∧
    (CoplanarInvariants.getPatternRaw Ai Aj Ak).length = 7 :=
  ⟨rfl, rfl, rfl⟩

/-- C8. Constructing a `Camera` without an explicit attitude fails for every
position on the reference polar axis `(0, 0, c)`: there `cross(k, r) = 0`,
the derived basis has a degenerate first column and is rank-deficient, so
`__init__` raises (`Except.error`) and no `Camera` object is produced. For
any position whose derived nadir basis is rank-3 (`det != 0`), construction
succeeds. -/
theorem C8_nadir_attitude_error (c fov res alpha : ℝ) (r : Vec3 ℝ)
    (hdet : (Camera.deriveT r).det ≠ 0) :
    Camera.init ⟨0, 0, c⟩ none fov res alpha =
      Except.error ("Invalid camera attitude matrix!") ∧
    ∃ cam : CameraState, Camera.init r none fov res alpha = Except.ok cam := by
  constructor
  · have hX : Vec3.cross ⟨0, 0, 1⟩ (⟨0, 0, c⟩ : Vec3 ℝ) = ⟨0, 0, 0⟩ := by
      ext <;> simp [Vec3.cross]
    have hdet0 : (Camera.deriveT ⟨0, 0, c⟩).det = 0 := by
      simp [Camera.deriveT, hX, Vec3.sdiv, Vec3.neg, Mat3.ofCols, Mat3.det]
    simp [Camera.init, hdet0]
  · refine ⟨⟨r, Camera.deriveT r, fov, res, alpha⟩, ?_⟩
    simp [Camera.init, hdet]

/-- Witness for C8: the polar position `(0, 0, 1)` errors while the
equatorial position `(0, 1, 0)` (whose derived basis has determinant 1)
constructs successfully. -/
theorem C8_nadir_attitude_error_witness :
    (Camera.deriveT (⟨0, 1, 0⟩ : Vec3 ℝ)).det ≠ 0 ∧
    (Camera.init ⟨0, 0, (1 : ℝ)⟩ none 0 0 0 =
        Except.error ("Invalid camera attitude matrix!") ∧
      ∃ cam : CameraState, Camera.init ⟨0, 1, 0⟩ none 0 0 0 = Except.ok cam) := by
  have hdet : (Camera.deriveT (⟨0, 1, 0⟩ : Vec3 ℝ)).det ≠ 0 := by
    simp only [Camera.deriveT, Vec3.cross, Vec3.sdiv, Vec3.neg, Vec3.norm,
      Mat3.ofCols, Mat3.det]
    norm_num [Real.sqrt_one]
  exact ⟨hdet, C8_nadir_attitude_error 1 0 0 0 ⟨0, 1, 0⟩ hdet⟩

/-- Indexing a `zipWith` of two sufficiently long lists. -/
theorem zipWith_get?_some {α β γ : Type} (f : α → β → γ) :
    ∀ (as : List α) (bs : List β) (n : Nat) (ha : n < as.length)
      (hb : n < bs.length),
      (List.zipWith f as bs).get? n = some (f (as.get ⟨n, ha⟩) (bs.get ⟨n, hb⟩)) := by
  intro as
  induction as with
  | nil => intro bs n ha hb; simp at ha
  | cons a as ih =>
    intro bs n ha hb
    cases bs with
    | nil => simp at hb
    | cons b bs =>
      cases n with
      | zero => rfl
      | succ m =>
        simpa using ih bs m (by simpa using ha) (by simpa using hb)

/-- C7. For every batch of crater conics `C` with positions `p`, camera
attitude `T_CM` and camera position `r_M`, `project_craters` returns, for
each crater index `n` independently, the conic `H^-T * C_n * H^-1`, where
`H` is built by `crater_camera_homography` from the projection matrix
`P = K [T | -T r]`, `T` a (two-sided) inverse of the supplied attitude and
`K` the intrinsic matrix built from the field-of-view and the
half-resolution offset. The nonsingularity hypotheses are the conditions
under which `LA.inv` succeeds on `T_CM` and on the homography. -/
theorem C7_project_craters_homography (Cs : List (Mat3 ℝ)) (ps : List (Vec3 ℝ))
    (fov resolution : ℝ) (T_CM : Mat3 ℝ) (r_M : Vec3 ℝ) (n : Nat)
    (hC : n < Cs.length) (hp : n < ps.length) (hT : T_CM.det ≠ 0)
    (hH : (crater_camera_homography (ps.get ⟨n, hp⟩)
        (projection_matrix (camera_matrix fov (resolution / 2) 0) T_CM.inv
          r_M)).det ≠ 0) :
    ∃ BT BH : Mat3 ℝ,
      T_CM.mul BT = Mat3.one ∧ BT.mul T_CM = Mat3.one ∧
      (crater_camera_homography (ps.get ⟨n, hp⟩)
          (projection_matrix (camera_matrix fov (resolution / 2) 0) BT
            r_M)).mul BH = Mat3.one ∧
      BH.mul (crater_camera_homography (ps.get ⟨n, hp⟩)
          (projection_matrix (camera_matrix fov (resolution / 2) 0) BT
            r_M)) = Mat3.one ∧
      (project_craters Cs ps fov resolution T_CM r_M).get? n =
        some (BH.transpose.mul ((Cs.get ⟨n, hC⟩).mul BH)) := by
  refine ⟨T_CM.inv,
    (crater_camera_homography (ps.get ⟨n, hp⟩)
      (projection_matrix (camera_matrix fov (resolution / 2) 0) T_CM.inv
        r_M)).inv,
    Mat3.mul_inv_cancel _ hT, Mat3.inv_mul_cancel _ hT,
    Mat3.mul_inv_cancel _ hH, Mat3.inv_mul_cancel _ hH, ?_⟩
  simp only [project_craters]
  rw [zipWith_get?_some _ Cs ps n hC hp]
  exact congrArg some (Mat3.mul_assoc _ _ _)

/-- Witness for C7: one crater at `(1, 0, 0)`, identity attitude, camera at
`(3, 0, 0)`, `fov = 90` degrees and resolution 2, for which the homography
has determinant `-2`. -/
theorem C7_project_craters_homography_witness :
    (Mat3.one : Mat3 ℝ).det ≠ 0 ∧
    (crater_camera_homography (⟨1, 0, 0⟩ : Vec3 ℝ)
        (projection_matrix (camera_matrix 90 (2 / 2) 0) (Mat3.one : Mat3 ℝ).inv
          ⟨3, 0, 0⟩)).det ≠ 0 ∧
    (∃ BT BH : Mat3 ℝ,
      (Mat3.one : Mat3 ℝ).mul BT = Mat3.one ∧ BT.mul Mat3.one = Mat3.one ∧
      (crater_camera_homography (⟨1, 0, 0⟩ : Vec3 ℝ)
          (projection_matrix (camera_matrix 90 (2 / 2) 0) BT ⟨3, 0, 0⟩)).mul BH =
        Mat3.one ∧
      BH.mul (crater_camera_homography (⟨1, 0, 0⟩ : Vec3 ℝ)
          (projection_matrix (camera_matrix 90 (2 / 2) 0) BT ⟨3, 0, 0⟩)) =
        Mat3.one ∧
      (project_craters [Mat3.mk 1 2 3 4 5 6 7 8 9] [⟨1, 0, 0⟩] 90 2 Mat3.one
          ⟨3, 0, 0⟩).get? 0 =
        some (BH.transpose.mul ((Mat3.mk 1 2 3 4 5 6 7 8 9 : Mat3 ℝ).mul BH))) := by
  have h1 : (Mat3.one : Mat3 ℝ).det ≠ 0 := by
    norm_num [Mat3.det, Mat3.one]
  have hinv1 : (Mat3.one : Mat3 ℝ).inv = Mat3.one := by
    ext <;> norm_num [Mat3.inv, Mat3.smul, Mat3.adjugate, Mat3.det, Mat3.one]
  have htan : Real.tan (deg2rad 90 / 2) = 1 := by
    have harg : deg2rad 90 / 2 = Real.pi / 4 := by
      simp only [deg2rad]; ring
    rw [harg, Real.tan_pi_div_four]
  have h2 : (crater_camera_homography (⟨1, 0, 0⟩ : Vec3 ℝ)
      (projection_matrix (camera_matrix 90 (2 / 2) 0) (Mat3.one : Mat3 ℝ).inv
        ⟨3, 0, 0⟩)).det ≠ 0 := by
    rw [hinv1]
    simp only [crater_camera_homography, projection_matrix, camera_matrix,
      ENU_system, Vec3.cross, Vec3.sdiv, Vec3.neg, Vec3.norm, Mat3.mulVec,
      Mat3.mul, Mat3.ofCols, Mat3.addCol3, Mat3.one, Mat3.det, htan]
    norm_num [Real.sqrt_one]
  exact ⟨h1, h2,
    C7_project_craters_homography [Mat3.mk 1 2 3 4 5 6 7 8 9] [⟨1, 0, 0⟩] 90 2
      Mat3.one ⟨3, 0, 0⟩ 0 (by norm_num) (by norm_num) h1 h2⟩

/-- C10. `CoplanarInvariants.from_detection_conics` reads the names `x_pix`
and `y_pix`, which are not bound anywhere in its scope, so every call (with
or without an explicit `crater_triads` argument) raises `NameError` and the
method, which also contains no `return` statement, never returns a
`CoplanarInvariants` instance; consequently `from_detection` and every
element yielded by `match_generator`, which delegate to it, also never
produce an invariant instance. -/
theorem C10_from_detection_conics_never_returns :
    (∀ (A : List (Mat3 ℝ)) (ct : Option (List (Nat × Nat × Nat))),
      CoplanarInvariants.from_detection_conics A ct =
        Except.error ("NameError: name x_pix is not defined")) ∧
    (∀ (x y a b psi : List ℝ) (conv : Bool)
        (ct : Option (List (Nat × Nat × Nat))),
      CoplanarInvariants.from_detection x y a b psi conv ct =
        Except.error ("NameError: name x_pix is not defined")) ∧
    (∀ (x y a b psi : List ℝ) (conv : Bool),
      (CoplanarInvariants.match_generator x y a b psi conv).map (fun pr => pr.2) =
        (enhanced_pattern_shifting x.length).map (fun _ =>
          (Except.error ("NameError: name x_pix is not defined") : InvariantResult))) ∧
    ("x_pix" ∉ from_detection_conics_bound_names ∧
      "y_pix" ∉ from_detection_conics_bound_names) := by
  refine ⟨fun A ct => rfl, fun x y a b psi conv ct => rfl, ?_, by decide, by decide⟩
  intro x y a b psi conv
  simp only [CoplanarInvariants.match_generator, List.map_map]
  rfl
